import Mathlib

/-
Verification of the decode pipeline of the scale-app BLE scanners.

Shallow embedding of the Python sources:
  scripts/ble-scanner.py      (MiBeacon advertisement decode path)
  scripts/ble_gatt_scanner.py (GATT notification decode path)

Conventions of the embedding:
  * a Python `bytes` buffer is a `List Nat` whose entries are byte values;
  * Python floats are modelled as rationals (ℚ); `round(x, 2)` is modelled
    as exact rational rounding to hundredths (`round2` below);
  * the AES-CCM primitive (an external library call) is an oracle parameter
    `aes : CipherCall → Option (List Nat)`; the embedding captures exactly
    the arguments the code hands to `AESCCM.decrypt`;
  * `output_json` writes to stdout; stdout is modelled as an explicit
    event-log state `List String` threaded through the functions that emit
    (message text is abbreviated; only the fact and order of emissions is
    modelled);
  * `datetime.now()` is modelled as an explicit input `now : Nat`.
-/

namespace ScaleApp

/-- Little-endian interpretation of a byte list, as in Python
`int.from_bytes(l, 'little')`. -/
def leBytes (l : List Nat) : Nat := l.foldr (fun b acc => b + 256 * acc) 0

/-- Python `round(q, 2)` on the exact rational value: round to the nearest
hundredth (ties resolved by Mathlib `round`, i.e. half-up; the source rounds
binary floats, which agrees except on representation-error-perturbed ties). -/
def round2 (q : ℚ) : ℚ := (round (q * 100) : ℤ) / 100

/-! ## ble-scanner.py : parse_s400_measurement -/

/-- Result dictionary of `parse_s400_measurement` (ble-scanner.py:160-230).
Optional fields model dictionary keys that the code inserts conditionally. -/
structure S400Meas where
  profileId : Nat
  timestamp : Nat
  isWeightMeasurement : Bool
  isImpedanceMeasurement : Bool
  isHeartRateMeasurement : Bool
  weightKg : Option ℚ
  impedanceOhm : Option ℚ
  impedanceLowOhm : Option ℚ
  heartRateBpm : Option Nat
  deriving Repr, DecidableEq

/-- The 32-bit little-endian data field at bytes 4-7
(`int.from_bytes(decrypted[4:8], 'little')`). -/
def s400_data_field (decrypted : List Nat) : Nat :=
  leBytes ((decrypted.drop 4).take 4)

/-- `mass_raw = data_field & 0x7FF` (bits 0-10). -/
def s400_mass_raw (decrypted : List Nat) : Nat :=
  s400_data_field decrypted % 2048

/-- `heart_rate_raw = (data_field >> 11) & 0x7F` (bits 11-17). -/
def s400_heart_rate_raw (decrypted : List Nat) : Nat :=
  s400_data_field decrypted / 2048 % 128

/-- `impedance_raw = data_field >> 18` (bits 18-31). -/
def s400_impedance_raw (decrypted : List Nat) : Nat :=
  s400_data_field decrypted / 262144

/-- Embedding of `parse_s400_measurement` (ble-scanner.py:160-230). -/
def parse_s400_measurement (decrypted : List Nat) : Option S400Meas :=
  if decrypted.length < 12 then none
  else
    let profile_id := decrypted.getD 3 0
    let mass_raw := s400_mass_raw decrypted
    let weight_kg : ℚ := (mass_raw : ℚ) / 10
    let heart_rate_raw := s400_heart_rate_raw decrypted
    let heart_rate_bpm := if 0 < heart_rate_raw then heart_rate_raw + 50 else 0
    let impedance_raw := s400_impedance_raw decrypted
    let impedance_ohm : ℚ := if 0 < impedance_raw then (impedance_raw : ℚ) / 10 else 0
    let device_ts := leBytes ((decrypted.drop 8).take 4)
    let is_weight := decide (0 < mass_raw)
    let is_impedance := decide (0 < impedance_raw) && decide (impedance_ohm < 3000)
    let is_heart_rate := decide (0 < heart_rate_raw) &&
      (decide (0 < heart_rate_raw) && decide (heart_rate_raw < 127))
    some
      { profileId := profile_id
        timestamp := device_ts
        isWeightMeasurement := is_weight
        isImpedanceMeasurement := is_impedance
        isHeartRateMeasurement := is_heart_rate
        weightKg := if is_weight then some weight_kg else none
        impedanceOhm := if is_impedance && is_weight then some impedance_ohm else none
        impedanceLowOhm := if is_impedance && !is_weight then some impedance_ohm else none
        heartRateBpm := if is_heart_rate then some heart_rate_bpm else none }

/-! ## ble-scanner.py : parse_mibeacon_objects -/

/-- Result dictionary of `parse_mibeacon_objects` (ble-scanner.py:233-271). -/
structure MiObjects where
  weightKg : Option ℚ
  impedanceOhm : Option Nat
  heartRate : Option Nat
  deriving Repr, DecidableEq

/-- The empty result dictionary `result = {}`. -/
def MiObjects.empty : MiObjects := ⟨none, none, none⟩

/-- One loop-body update of the result dictionary for an object
`{id, len, data}` (ble-scanner.py:254-267). -/
def mibeaconObjectStep (acc : MiObjects) (obj_id obj_len : Nat)
    (obj_data : List Nat) : MiObjects :=
  if obj_id = 0x1006 ∧ 2 ≤ obj_len then
    { acc with weightKg := some (round2 ((leBytes (obj_data.take 2) : ℚ) / 100)) }
  else if obj_id = 0x1007 ∧ 2 ≤ obj_len then
    let impedance := leBytes (obj_data.take 2)
    if 100 ≤ impedance ∧ impedance ≤ 2000 then
      { acc with impedanceOhm := some impedance }
    else acc
  else if obj_id = 0x1008 ∧ 1 ≤ obj_len then
    { acc with heartRate := some (obj_data.headD 0) }
  else acc

/-- Embedding of the `parse_mibeacon_objects` loop (ble-scanner.py:245-269),
recursing on the suffix `data[offset:]`.  The loop continues while
`offset + 3 <= len(data)`; an object whose declared length overruns the
buffer (`offset + 3 + obj_len > len(data)`, i.e. `obj_len > |rest|`)
stops the loop; otherwise the offset advances by `3 + obj_len`. -/
def parse_mibeacon_objects_impl : List Nat → MiObjects → MiObjects
  | b0 :: b1 :: b2 :: rest, acc =>
    if rest.length < b2 then acc
    else
      parse_mibeacon_objects_impl (rest.drop b2)
        (mibeaconObjectStep acc (b0 + 256 * b1) b2 (rest.take b2))
  | _, acc => acc
  termination_by l _ => l.length
  decreasing_by
    simp only [List.length_cons, List.length_drop]
    omega

/-- Embedding of `parse_mibeacon_objects(data)` (ble-scanner.py:233-271). -/
def parse_mibeacon_objects (data : List Nat) : MiObjects :=
  parse_mibeacon_objects_impl data MiObjects.empty

/-- Bounds-checking model of the same loop: every individual byte access of
the loop body (`data[offset]` ... `data[offset+2]`, from which slices are
formed) is performed through `List.getElem?`, and an out-of-bounds access
yields `none` (a raised `IndexError` in Python).  Used to state that the
parser never reads out of bounds. -/
def parse_mibeacon_objects_checked : List Nat → MiObjects → Option MiObjects
  | rest, acc =>
    if 3 ≤ rest.length then
      match rest[0]?, rest[1]?, rest[2]? with
      | some b0, some b1, some b2 =>
        if rest.length < 3 + b2 then some acc
        else
          parse_mibeacon_objects_checked (rest.drop (3 + b2))
            (mibeaconObjectStep acc (b0 + 256 * b1) b2 ((rest.drop 3).take b2))
      | _, _, _ => none
    else some acc
  termination_by l _ => l.length
  decreasing_by
    simp only [List.length_drop]
    omega

/-! ## ble-scanner.py : decrypt_mibeacon -/

/-- The exact argument tuple the code hands to the AES-CCM primitive:
`AESCCM(bindkey, tag_length=4).decrypt(nonce, encrypted_payload + mic,
associated_data)` (ble-scanner.py:143-146). -/
structure CipherCall where
  key : List Nat
  nonce : List Nat
  ctAndTag : List Nat
  aad : List Nat
  deriving Repr, DecidableEq

/-- The part of the data argument AES-CCM with `tag_length=4` treats as
ciphertext: everything but the trailing 4 bytes. -/
def CipherCall.ciphertext (c : CipherCall) : List Nat :=
  c.ctAndTag.take (c.ctAndTag.length - 4)

/-- The part of the data argument AES-CCM with `tag_length=4` treats as the
authentication tag: the trailing 4 bytes. -/
def CipherCall.tag (c : CipherCall) : List Nat :=
  c.ctAndTag.drop (c.ctAndTag.length - 4)

/-- How one call of `decrypt_mibeacon` resolves, up to (but not including)
the external AES-CCM primitive: failure (`None` before the cipher is ever
invoked), a plaintext payload returned directly for an unencrypted frame,
or an invocation of the cipher with the given arguments. -/
inductive DecryptStep where
  | plain : List Nat → DecryptStep
  | cipher : CipherCall → DecryptStep
  deriving Repr, DecidableEq

/-- Embedding of `decrypt_mibeacon` (ble-scanner.py:87-157) up to the cipher
invocation.  `mac` is the caller-supplied device address as 6 bytes in
written order (the source takes a hex string and converts it with
`mac_to_bytes(mac)[::-1]`, which is the identity on the byte values);
`some []`/empty models a Python-falsy empty string. -/
def decrypt_mibeacon_step (data : List Nat) (bindkey : List Nat)
    (mac : Option (List Nat)) : Option DecryptStep :=
  if data.length < 11 then none
  else
    let frame_ctrl := leBytes (data.take 2)
    let is_encrypted := frame_ctrl.testBit 3
    let has_mac := frame_ctrl.testBit 4
    if ¬ is_encrypted then
      some (DecryptStep.plain (data.drop (if has_mac then 11 else 5)))
    else
      let macStart : Option (List Nat × Nat) :=
        if has_mac then some ((data.drop 5).take 6, 11)
        else
          match mac with
          | some m => if m.isEmpty then none else some (m, 5)
          | none => none
      match macStart with
      | none => none
      | some (xiaomi_mac, start) =>
        if data.length < start + 8 then none
        else
          let nonce :=
            xiaomi_mac.reverse ++ (data.drop 2).take 3 ++
              (data.drop (data.length - 7)).take 3
          if nonce.length ≠ 12 then none
          else
            let encrypted_payload := (data.drop start).take (data.length - 7 - start)
            let mic := data.drop (data.length - 4)
            some (DecryptStep.cipher
              ⟨bindkey, nonce, encrypted_payload ++ mic, [0x11]⟩)

/-- Full `decrypt_mibeacon` with the AES-CCM primitive abstracted as the
oracle `aes` and stdout modelled as the threaded event log: a successful
decrypt emits one debug event and returns the plaintext; a failed
authentication emits one debug event and returns `None`
(ble-scanner.py:143-157). -/
def decrypt_mibeacon_logged (aes : CipherCall → Option (List Nat))
    (log : List String) (data : List Nat) (bindkey : List Nat)
    (mac : Option (List Nat)) : List String × Option (List Nat) :=
  match decrypt_mibeacon_step data bindkey mac with
  | none => (log, none)
  | some (DecryptStep.plain p) => (log, some p)
  | some (DecryptStep.cipher c) =>
    match aes c with
    | some plaintext => (log ++ ["debug: Decrypted"], some plaintext)
    | none => (log ++ ["debug: Decryption failed"], none)

/-! ## ble-scanner.py : parse_scale_service_data -/

/-- Result dictionary of `parse_scale_service_data` (ble-scanner.py:274-354).
Optional fields model dictionary keys that appear only in some of the
returned dictionaries; `timestamp` is the wall-clock capture time, supplied
as the explicit input `now`. -/
structure Meas where
  weightKg : Option ℚ
  impedanceOhm : Option ℚ
  impedanceLowOhm : Option ℚ
  heartRateBpm : Option Nat
  heartRate : Option Nat
  profileId : Option Nat
  isStabilized : Option Bool
  isImpedanceMeasurement : Option Bool
  isHeartRateMeasurement : Option Bool
  timestamp : Nat
  deriving Repr, DecidableEq

/-- The fallback branch of `parse_scale_service_data`: standard MiBeacon
object parsing of a decrypted payload (ble-scanner.py:327-336). -/
def scaleObjectsFallback (log : List String) (decrypted : List Nat)
    (now : Nat) : List String × Option Meas :=
  let objects := parse_mibeacon_objects decrypted
  match objects.weightKg with
  | some w =>
    (log, some
      { weightKg := some w
        impedanceOhm := objects.impedanceOhm.map (fun n => (n : ℚ))
        impedanceLowOhm := none
        heartRateBpm := none
        heartRate := objects.heartRate
        profileId := none
        isStabilized := some true
        isImpedanceMeasurement := none
        isHeartRateMeasurement := none
        timestamp := now })
  | none => (log, none)

/-- Embedding of `parse_scale_service_data` (ble-scanner.py:274-354), with
the AES-CCM oracle `aes`, stdout as the threaded event log, and
`datetime.now()` as the input `now`.  `bindkey = none` or `some []` models
a Python-falsy bindkey. -/
def parse_scale_service_data_logged (aes : CipherCall → Option (List Nat))
    (log : List String) (data : List Nat) (bindkey : Option (List Nat))
    (mac : Option (List Nat)) (now : Nat) : List String × Option Meas :=
  if data.length < 5 then (log, none)
  else
    let frame_ctrl := leBytes (data.take 2)
    if frame_ctrl.testBit 3 then
      -- encrypted path
      let keyUsable : Bool := match bindkey with
        | some k => !k.isEmpty
        | none => false
      if keyUsable then
        let k := bindkey.getD []
        let dres := decrypt_mibeacon_logged aes log data k mac
        match dres.2 with
        | none => (dres.1, none)
        | some decrypted =>
          if decrypted.isEmpty then (dres.1, none)
          else
            match parse_s400_measurement decrypted with
            | some s =>
              let log2 :=
                if s.isWeightMeasurement then dres.1 ++ ["debug: S400 weight"]
                else if s.isImpedanceMeasurement then
                  dres.1 ++ ["debug: S400 impedance-only"]
                else dres.1
              if s.isWeightMeasurement || s.isImpedanceMeasurement then
                (log2, some
                  { weightKg := some (s.weightKg.getD 0)
                    impedanceOhm := s.impedanceOhm
                    impedanceLowOhm := s.impedanceLowOhm
                    heartRateBpm := s.heartRateBpm
                    heartRate := none
                    profileId := some s.profileId
                    isStabilized := some s.isWeightMeasurement
                    isImpedanceMeasurement := some s.isImpedanceMeasurement
                    isHeartRateMeasurement := some s.isHeartRateMeasurement
                    timestamp := now })
              else scaleObjectsFallback log2 decrypted now
            | none => scaleObjectsFallback dres.1 decrypted now
      else (log ++ ["debug: Encrypted MiBeacon but no bindkey provided"], none)
    else
      -- unencrypted path
      let has_mac := frame_ctrl.testBit 4
      let offset := if has_mac then 11 else 5
      if offset + 3 ≤ data.length then
        let objects := parse_mibeacon_objects (data.drop offset)
        match objects.weightKg with
        | some w =>
          (log, some
            { weightKg := some w
              impedanceOhm := objects.impedanceOhm.map (fun n => (n : ℚ))
              impedanceLowOhm := none
              heartRateBpm := none
              heartRate := none
              profileId := none
              isStabilized := some true
              isImpedanceMeasurement := none
              isHeartRateMeasurement := none
              timestamp := now })
        | none => (log, none)
      else (log, none)

/-- The decode result of `parse_scale_service_data`, viewed without the
stdout log (the pure decode pipeline). -/
def parse_scale_service_data (aes : CipherCall → Option (List Nat))
    (data : List Nat) (bindkey : Option (List Nat)) (mac : Option (List Nat))
    (now : Nat) : Option Meas :=
  (parse_scale_service_data_logged aes [] data bindkey mac now).2

/-! ## ble_gatt_scanner.py : WeightStabilityTracker -/

/-- State of `WeightStabilityTracker` (ble_gatt_scanner.py:53-111). -/
structure WeightStabilityTracker where
  stable_count_threshold : Nat
  tolerance_kg : ℚ
  stable_count : Nat
  last_weight : Option ℚ
  stable_weight : Option ℚ
  deriving Repr, DecidableEq

/-- `WeightStabilityTracker.__init__` / `reset`: count 0, no last weight,
no stable weight. -/
def WeightStabilityTracker.init (threshold : Nat) (tolerance : ℚ) :
    WeightStabilityTracker :=
  ⟨threshold, tolerance, 0, none, none⟩

/-- Embedding of `WeightStabilityTracker.check_stability`
(ble_gatt_scanner.py:73-101): returns the updated tracker state and the
boolean result. -/
def WeightStabilityTracker.check_stability (t : WeightStabilityTracker)
    (weight_kg : ℚ) : WeightStabilityTracker × Bool :=
  match t.last_weight with
  | none =>
    ({ t with last_weight := some weight_kg, stable_count := 1 }, false)
  | some last =>
    let cnt := if |weight_kg - last| ≤ t.tolerance_kg then t.stable_count + 1 else 1
    let t' := { t with stable_count := cnt, last_weight := some weight_kg }
    if t.stable_count_threshold ≤ cnt then
      ({ t' with stable_weight := some weight_kg }, true)
    else (t', false)

/-! ## ble_gatt_scanner.py : reconnect backoff -/

/-- The reconnection-relevant fields of `GATTScaleScanner`
(ble_gatt_scanner.py:263-295). -/
structure GATTScaleScanner where
  reconnect_delay : ℚ
  max_reconnect_delay : ℚ
  reconnect_attempt : Nat
  max_reconnect_attempts : Nat
  deriving Repr, DecidableEq

/-- Embedding of `GATTScaleScanner._get_current_reconnect_delay`
(ble_gatt_scanner.py:374-377). -/
def GATTScaleScanner.getCurrentReconnectDelay (s : GATTScaleScanner) : ℚ :=
  min (s.reconnect_delay * 2 ^ s.reconnect_attempt) s.max_reconnect_delay

/-- Embedding of `GATTScaleScanner._get_reconnect_delays`
(ble_gatt_scanner.py:379-385). -/
def GATTScaleScanner.getReconnectDelays (s : GATTScaleScanner) : List ℚ :=
  (List.range s.max_reconnect_attempts).map
    (fun i => min (s.reconnect_delay * 2 ^ i) s.max_reconnect_delay)

/-! ## ble_gatt_scanner.py : parse_xiaomi_weight_advertisement -/

/-- Result dictionary of `parse_xiaomi_weight_advertisement`
(ble_gatt_scanner.py:196-249); the constant-`None` companion fields are
omitted. -/
structure XiaomiMeas where
  weightKg : ℚ
  isStabilized : Bool
  loadRemoved : Bool
  timestamp : Nat
  deriving Repr, DecidableEq

/-- Embedding of `parse_xiaomi_weight_advertisement`
(ble_gatt_scanner.py:196-249). -/
def parse_xiaomi_weight_advertisement (data : List Nat) (now : Nat) :
    Option XiaomiMeas :=
  if data.length < 10 then none
  else
    let flags := data.getD 0 0
    let is_jin := flags.testBit 4
    let is_lbs := flags.testBit 2
    let is_kg := flags.testBit 1
    let is_stabilized := flags.testBit 5
    let load_removed := flags.testBit 7
    let weight_raw := leBytes ((data.drop 1).take 2)
    let weight_kg : ℚ :=
      if is_jin then (weight_raw : ℚ) / 100 * (1 / 2)
      else if is_lbs then (weight_raw : ℚ) / 100 * (453592 / 1000000)
      else if is_kg then (weight_raw : ℚ) / 200
      else (weight_raw : ℚ) / 100
    some ⟨round2 weight_kg, is_stabilized, load_removed, now⟩

/-! ## Claim theorems -/

/-- C5: for every reconnect attempt number n ≥ 0, the backoff delay equals
min(baseDelay × 2^n, maxDelay); with baseDelay = 1.0 and maxDelay = 30.0
attempts 0..4 yield delays 1.0, 2.0, 4.0, 8.0, 16.0, and with
baseDelay = 10.0 and maxDelay = 15.0 the delays are 10.0, 15.0, 15.0, 15.0
(capped at the maximum). -/
theorem C5_backoff_delay :
    (∀ (base maxd : ℚ) (n maxAtt : Nat),
      GATTScaleScanner.getCurrentReconnectDelay ⟨base, maxd, n, maxAtt⟩
        = min (base * 2 ^ n) maxd)
    ∧ GATTScaleScanner.getReconnectDelays ⟨1, 30, 0, 5⟩ = [1, 2, 4, 8, 16]
    ∧ GATTScaleScanner.getReconnectDelays ⟨10, 15, 0, 4⟩ = [10, 15, 15, 15] := by
  refine ⟨fun _ _ _ _ => rfl, ?_, ?_⟩ <;>
    norm_num [GATTScaleScanner.getReconnectDelays, List.range_succ]

/-- C10: a vendor notification buffer of at least 10 bytes whose flag byte
has bit 1 set (kilogram unit) and bits 2 and 4 clear decodes to the
little-endian u16 at bytes 1-2 divided by 200 and rounded to 2 decimal
places, with the stabilized flag from flag bit 5 and the load-removed flag
from flag bit 7; buffers shorter than 10 bytes return no result. -/
theorem C10_xiaomi_weight_decode :
    ∀ (data : List Nat) (now : Nat),
      (10 ≤ data.length →
        (data.getD 0 0).testBit 1 = true →
        (data.getD 0 0).testBit 2 = false →
        (data.getD 0 0).testBit 4 = false →
        parse_xiaomi_weight_advertisement data now =
          some ⟨round2 ((leBytes ((data.drop 1).take 2) : ℚ) / 200),
                (data.getD 0 0).testBit 5, (data.getD 0 0).testBit 7, now⟩)
      ∧ (data.length < 10 → parse_xiaomi_weight_advertisement data now = none) := by
  intro data now
  constructor
  · intro hlen h1 h2 h4
    simp only [parse_xiaomi_weight_advertisement, h1, h2, h4]
    rw [if_neg (by omega)]
    simp
  · intro hlen
    simp only [parse_xiaomi_weight_advertisement]
    rw [if_pos hlen]

/-- Closed witness for C10 at the concrete buffer
[0x22, 0x98, 0x3A, 0, 0, 0, 0, 0, 1, 0] (kg flag + stabilized flag,
raw weight 15000 → 75.00 kg) and at the short buffer [0]. -/
theorem C10_xiaomi_weight_decode_witness :
    (10 ≤ ([0x22, 0x98, 0x3A, 0, 0, 0, 0, 0, 1, 0] : List Nat).length
      ∧ parse_xiaomi_weight_advertisement [0x22, 0x98, 0x3A, 0, 0, 0, 0, 0, 1, 0] 0
          = some ⟨round2 ((leBytes (([0x22, 0x98, 0x3A, 0, 0, 0, 0, 0, 1, 0].drop 1).take 2) : ℚ) / 200),
              (([0x22, 0x98, 0x3A, 0, 0, 0, 0, 0, 1, 0] : List Nat).getD 0 0).testBit 5,
              (([0x22, 0x98, 0x3A, 0, 0, 0, 0, 0, 1, 0] : List Nat).getD 0 0).testBit 7, 0⟩)
    ∧ (([0] : List Nat).length < 10
      ∧ parse_xiaomi_weight_advertisement [0] 0 = none) :=
  ⟨⟨by decide,
    (C10_xiaomi_weight_decode [0x22, 0x98, 0x3A, 0, 0, 0, 0, 0, 1, 0] 0).1
      (by decide) (by decide) (by decide) (by decide)⟩,
   by decide,
   (C10_xiaomi_weight_decode [0] 0).2 (by decide)⟩

/-- A 12-byte compact S400 payload whose 32-bit data field carries exactly
the weight raw value r (r < 2048, so the heart-rate and impedance bit
ranges are zero). -/
def s400PayloadOfRaw (r : Nat) : List Nat :=
  [0x16, 0x6E, 0x09, 0x00, r % 256, r / 256, 0, 0, 0, 0, 0, 0]

/-- C3: for every weight raw value r in [10, 3000] representable in the
11-bit weight field of a compact sensor payload, decoding keeps the weight
value r/10 if and only if 1.0 ≤ r/10 ≤ 300.0 (and keeps it exactly,
not clamped). -/
theorem C3_weight_validity :
    ∀ r : Nat, 10 ≤ r → r ≤ 3000 → r < 2048 →
      ((parse_s400_measurement (s400PayloadOfRaw r)).map S400Meas.weightKg
          = some (some ((r : ℚ) / 10))
        ↔ (1 ≤ (r : ℚ) / 10 ∧ (r : ℚ) / 10 ≤ 300)) := by
  intro r h10 h3000 h2048
  have hdf : s400_data_field (s400PayloadOfRaw r) = r := by
    simp [s400_data_field, s400PayloadOfRaw, leBytes]
    omega
  have hmr : s400_mass_raw (s400PayloadOfRaw r) = r := by
    simp [s400_mass_raw, hdf]
    omega
  have hlen : ¬ (s400PayloadOfRaw r).length < 12 := by
    simp [s400PayloadOfRaw]
  refine iff_of_true ?_ ⟨?_, ?_⟩
  · simp only [parse_s400_measurement, hlen, if_false, Option.map_some']
    rw [hmr]
    rw [if_pos (by simp; omega)]
  · rw [le_div_iff₀ (by norm_num : (0:ℚ) < 10)]
    norm_num
    exact_mod_cast h10
  · rw [div_le_iff₀ (by norm_num : (0:ℚ) < 10)]
    norm_num
    exact_mod_cast h3000

/-- Closed witness for C3 at the concrete raw value 750 (75.0 kg). -/
theorem C3_weight_validity_witness :
    10 ≤ 750 ∧ 750 ≤ 3000 ∧ 750 < 2048 ∧
    ((parse_s400_measurement (s400PayloadOfRaw 750)).map S400Meas.weightKg
        = some (some ((750 : ℚ) / 10))
      ↔ (1 ≤ (750 : ℚ) / 10 ∧ (750 : ℚ) / 10 ≤ 300)) :=
  ⟨by decide, by decide, by decide,
   C3_weight_validity 750 (by decide) (by decide) (by decide)⟩

/-- C4: the first sample after a reset sets the count to 1 and returns
stable = false; a later sample within tolerance of the previous one
increments the count, a sample beyond tolerance resets the count to 1; the
tracker returns stable = true exactly when the count reaches the threshold,
recording that sample as the stable weight; with the default configuration
(threshold 3, tolerance 0.05 kg) three consecutive samples each within
tolerance of the previous yield stable = true on the third. -/
theorem C4_stability_tracker :
    (∀ (thr : Nat) (tol w : ℚ),
      (WeightStabilityTracker.init thr tol).check_stability w
        = (⟨thr, tol, 1, some w, none⟩, false))
    ∧ (∀ (t : WeightStabilityTracker) (last w : ℚ), t.last_weight = some last →
        |w - last| ≤ t.tolerance_kg →
        (t.check_stability w).1.stable_count = t.stable_count + 1)
    ∧ (∀ (t : WeightStabilityTracker) (last w : ℚ), t.last_weight = some last →
        ¬ |w - last| ≤ t.tolerance_kg →
        (t.check_stability w).1.stable_count = 1)
    ∧ (∀ (t : WeightStabilityTracker) (last w : ℚ), t.last_weight = some last →
        (((t.check_stability w).2 = true ↔
            t.stable_count_threshold ≤ (t.check_stability w).1.stable_count)
          ∧ ((t.check_stability w).2 = true →
              (t.check_stability w).1.stable_weight = some w)))
    ∧ (∀ w0 w1 w2 : ℚ, |w1 - w0| ≤ 1/20 → |w2 - w1| ≤ 1/20 →
        ((WeightStabilityTracker.init 3 (1/20)).check_stability w0).2 = false
        ∧ (((WeightStabilityTracker.init 3 (1/20)).check_stability w0).1.check_stability w1).2 = false
        ∧ ((((WeightStabilityTracker.init 3 (1/20)).check_stability w0).1.check_stability w1).1.check_stability w2).2 = true) := by
  refine ⟨fun thr tol w => rfl, ?_, ?_, ?_, ?_⟩
  · intro t last w hl htol
    simp [WeightStabilityTracker.check_stability, hl, htol]
    split <;> rfl
  · intro t last w hl htol
    simp [WeightStabilityTracker.check_stability, hl, htol]
    split <;> rfl
  · intro t last w hl
    have key : t.check_stability w =
        if t.stable_count_threshold ≤
            (if |w - last| ≤ t.tolerance_kg then t.stable_count + 1 else 1) then
          ({ t with
              stable_count := (if |w - last| ≤ t.tolerance_kg then t.stable_count + 1 else 1),
              last_weight := some w, stable_weight := some w }, true)
        else
          ({ t with
              stable_count := (if |w - last| ≤ t.tolerance_kg then t.stable_count + 1 else 1),
              last_weight := some w }, false) := by
      unfold WeightStabilityTracker.check_stability
      rw [hl]
    rw [key]
    by_cases hc : t.stable_count_threshold ≤
        (if |w - last| ≤ t.tolerance_kg then t.stable_count + 1 else 1)
    · rw [if_pos hc]
      exact ⟨⟨fun _ => hc, fun _ => rfl⟩, fun _ => rfl⟩
    · rw [if_neg hc]
      exact ⟨⟨fun h => Bool.noConfusion h, fun h => absurd h hc⟩,
        fun h => Bool.noConfusion h⟩
  · intro w0 w1 w2 h01 h12
    have key : ∀ (thr : Nat) (tol : ℚ) (cnt : Nat) (last : ℚ) (sw : Option ℚ) (w : ℚ),
        WeightStabilityTracker.check_stability ⟨thr, tol, cnt, some last, sw⟩ w =
          if thr ≤ (if |w - last| ≤ tol then cnt + 1 else 1) then
            (⟨thr, tol, (if |w - last| ≤ tol then cnt + 1 else 1), some w, some w⟩, true)
          else
            (⟨thr, tol, (if |w - last| ≤ tol then cnt + 1 else 1), some w, sw⟩, false) :=
      fun _ _ _ _ _ _ => rfl
    have s1 : (WeightStabilityTracker.init 3 (1/20)).check_stability w0
        = (⟨3, 1/20, 1, some w0, none⟩, false) := rfl
    have s2 : WeightStabilityTracker.check_stability ⟨3, 1/20, 1, some w0, none⟩ w1
        = (⟨3, 1/20, 2, some w1, none⟩, false) := by
      rw [key, if_pos h01]
      norm_num
    have s3 : WeightStabilityTracker.check_stability ⟨3, 1/20, 2, some w1, none⟩ w2
        = (⟨3, 1/20, 3, some w2, some w2⟩, true) := by
      rw [key, if_pos h12]
      norm_num
    refine ⟨by rw [s1], ?_, ?_⟩
    · show (WeightStabilityTracker.check_stability ⟨3, 1/20, 1, some w0, none⟩ w1).2 = false
      rw [s2]
    · simp only [s1, s2, s3]

/-- Closed witness for C4: samples 75.02, 75.0, 75.04 (all within 0.05 kg
of the previous) against the default tracker, plus increment/reset/stable
cases at concrete states. -/
theorem C4_stability_tracker_witness :
    (((WeightStabilityTracker.init 3 (1/20)).check_stability (7502/100)).2 = false
      ∧ (((WeightStabilityTracker.init 3 (1/20)).check_stability (7502/100)).1.check_stability 75).2 = false
      ∧ ((((WeightStabilityTracker.init 3 (1/20)).check_stability (7502/100)).1.check_stability 75).1.check_stability (7504/100)).2 = true)
    ∧ ((WeightStabilityTracker.check_stability ⟨3, 1/20, 1, some 75, none⟩ (7504/100)).1.stable_count = 2)
    ∧ ((WeightStabilityTracker.check_stability ⟨3, 1/20, 2, some 75, none⟩ 80).1.stable_count = 1)
    ∧ ((WeightStabilityTracker.check_stability ⟨3, 1/20, 2, some 75, none⟩ 75).2 = true ↔
        3 ≤ (WeightStabilityTracker.check_stability ⟨3, 1/20, 2, some 75, none⟩ 75).1.stable_count) :=
  ⟨C4_stability_tracker.2.2.2.2 (7502/100) 75 (7504/100)
      (by rw [abs_le]; norm_num) (by rw [abs_le]; norm_num),
   C4_stability_tracker.2.1 ⟨3, 1/20, 1, some 75, none⟩ 75 (7504/100) rfl
      (by rw [abs_le]; norm_num),
   C4_stability_tracker.2.2.1 ⟨3, 1/20, 2, some 75, none⟩ 75 80 rfl
      (by rw [abs_le]; norm_num),
   (C4_stability_tracker.2.2.2.1 ⟨3, 1/20, 2, some 75, none⟩ 75 75 rfl).1⟩

/-- C1: every 12-byte-or-longer decrypted compact sensor payload decodes
with weight = bits 0-10 of the little-endian 32-bit field at bytes 4-7
divided by 10, present iff the raw value is > 0; heart rate = bits 11-17
plus 50, absent when the raw value is 0; impedance = bits 18-31 divided by
10, absent when the raw value is 0, and reported as normal impedance when
weight is present in the same object and as low-phase impedance otherwise,
never both. -/
theorem C1_s400_compact_decode :
    ∀ decrypted : List Nat, 12 ≤ decrypted.length →
      ∃ m : S400Meas, parse_s400_measurement decrypted = some m
        ∧ m.weightKg = (if 0 < s400_mass_raw decrypted
            then some ((s400_mass_raw decrypted : ℚ) / 10) else none)
        ∧ (s400_heart_rate_raw decrypted = 0 → m.heartRateBpm = none)
        ∧ (∀ v, m.heartRateBpm = some v → v = s400_heart_rate_raw decrypted + 50)
        ∧ (s400_impedance_raw decrypted = 0 →
            m.impedanceOhm = none ∧ m.impedanceLowOhm = none)
        ∧ (∀ q, m.impedanceOhm = some q →
            q = (s400_impedance_raw decrypted : ℚ) / 10 ∧ m.weightKg.isSome = true)
        ∧ (∀ q, m.impedanceLowOhm = some q →
            q = (s400_impedance_raw decrypted : ℚ) / 10 ∧ m.weightKg = none)
        ∧ ¬ (m.impedanceOhm.isSome = true ∧ m.impedanceLowOhm.isSome = true) := by
  intro dec hlen
  rw [parse_s400_measurement, if_neg (by omega)]
  refine ⟨_, rfl, ?_, ?_, ?_, ?_, ?_, ?_, ?_⟩
  · by_cases hw : 0 < s400_mass_raw dec <;> simp [hw]
  · intro h0
    simp [h0]
  · intro v hv
    by_cases hh : 0 < s400_heart_rate_raw dec
    · by_cases hlt : s400_heart_rate_raw dec < 127
      · simp [hh, hlt] at hv
        omega
      · simp [hh, hlt] at hv
    · simp [hh] at hv
  · intro h0
    simp [h0]
  · intro q hq
    by_cases hi : 0 < s400_impedance_raw dec
    · by_cases h3 : ((s400_impedance_raw dec : ℚ)) / 10 < 3000
      · by_cases hw : 0 < s400_mass_raw dec
        · simp [hi, h3, hw] at hq
          exact ⟨by linarith [hq], by simp [hw]⟩
        · simp [hi, h3, hw] at hq
      · simp [hi, h3] at hq
    · simp [hi] at hq
  · intro q hq
    by_cases hi : 0 < s400_impedance_raw dec
    · by_cases h3 : ((s400_impedance_raw dec : ℚ)) / 10 < 3000
      · by_cases hw : 0 < s400_mass_raw dec
        · simp [hi, h3, hw] at hq
        · simp [hi, h3, hw] at hq
          exact ⟨by linarith [hq], by simp [hw]⟩
      · simp [hi, h3] at hq
    · simp [hi] at hq
  · rintro ⟨ho, hl⟩
    by_cases hw : 0 < s400_mass_raw dec <;> simp [hw] at ho hl

/-- Concrete decrypted compact payload used as the C1 witness input: weight
raw 750 (75.0 kg), heart-rate raw 0, impedance raw 0. -/
def c1payload : List Nat := [0x16, 0x6E, 9, 1, 0xEE, 0x02, 0, 0, 0, 0, 0, 0]

/-- Closed witness for C1 at the payload `c1payload`. -/
theorem C1_s400_compact_decode_witness :
    12 ≤ c1payload.length ∧
    (∃ m : S400Meas, parse_s400_measurement c1payload = some m
      ∧ m.weightKg = (if 0 < s400_mass_raw c1payload
          then some ((s400_mass_raw c1payload : ℚ) / 10) else none)
      ∧ (s400_heart_rate_raw c1payload = 0 → m.heartRateBpm = none)
      ∧ (∀ v, m.heartRateBpm = some v → v = s400_heart_rate_raw c1payload + 50)
      ∧ (s400_impedance_raw c1payload = 0 →
          m.impedanceOhm = none ∧ m.impedanceLowOhm = none)
      ∧ (∀ q, m.impedanceOhm = some q →
          q = (s400_impedance_raw c1payload : ℚ) / 10 ∧ m.weightKg.isSome = true)
      ∧ (∀ q, m.impedanceLowOhm = some q →
          q = (s400_impedance_raw c1payload : ℚ) / 10 ∧ m.weightKg = none)
      ∧ ¬ (m.impedanceOhm.isSome = true ∧ m.impedanceLowOhm.isSome = true)) :=
  ⟨by decide, C1_s400_compact_decode c1payload (by decide)⟩

/-- Projection of a decrypt step onto the cipher-call arguments, when the
step reached the AES-CCM invocation. -/
def stepCipherArgs : Option DecryptStep → Option CipherCall
  | some (DecryptStep.cipher c) => some c
  | _ => none

/-- Splitting the data argument of an AES-CCM call built as
payload ++ mic with a 4-byte mic. -/
theorem ctAndTag_split (key nonce aad pl mic : List Nat) (hm : mic.length = 4) :
    (CipherCall.mk key nonce (pl ++ mic) aad).ciphertext = pl
    ∧ (CipherCall.mk key nonce (pl ++ mic) aad).tag = mic := by
  constructor
  · show (pl ++ mic).take ((pl ++ mic).length - 4) = pl
    rw [List.length_append, hm, Nat.add_sub_cancel, List.take_left]
  · show (pl ++ mic).drop ((pl ++ mic).length - 4) = mic
    rw [List.length_append, hm, Nat.add_sub_cancel, List.drop_left]

/-- Concrete 19-byte encrypted MiBeacon frame with embedded address:
frame control 0x0018 (encrypted, address embedded), product id + counter
1 2 3, address 10..15, a 1-byte encrypted payload 0xAA, trailing counter
segment 0xB1 0xB2 0xB3, and 4-byte tag 0xC1..0xC4. -/
def c2frame : List Nat :=
  [0x18, 0x00, 1, 2, 3, 10, 11, 12, 13, 14, 15, 0xAA, 0xB1, 0xB2, 0xB3,
   0xC1, 0xC2, 0xC3, 0xC4]

/-- C2 counterexample: on the concrete encrypted frame `c2frame` the
ciphertext handed to the AES-CCM cipher is the single byte [0xAA] =
frame[11 : len-7], not frame[payloadStart : len-4] =
[0xAA, 0xB1, 0xB2, 0xB3] as the claim states; the final conjunct evaluates
the claim's ciphertext equation at this frame to false. -/
theorem C2_beacon_slices_counterexample :
    (stepCipherArgs (decrypt_mibeacon_step c2frame (List.replicate 16 0) none)).map
        CipherCall.ciphertext = some [0xAA]
    ∧ (c2frame.drop 11).take (c2frame.length - 4 - 11) = [0xAA, 0xB1, 0xB2, 0xB3]
    ∧ ([0xAA] : List Nat) ≠ [0xAA, 0xB1, 0xB2, 0xB3]
    ∧ (stepCipherArgs (decrypt_mibeacon_step c2frame (List.replicate 16 0) none)).map
        (fun c => decide (c.ciphertext = (c2frame.drop 11).take (c2frame.length - 4 - 11)))
      = some false := by decide

/-- C2 amended: whenever the decryptor reaches the AES-CCM invocation, the
ciphertext handed to the cipher equals frame[payloadStart : len-7] (the
three bytes frame[len-7 : len-4] are bound into the 12-byte nonce — its
trailing 3 bytes — instead of being decrypted) and the 4-byte
authentication tag equals frame[len-4 :], where payloadStart is 11 if the
device address is embedded in the frame and 5 otherwise. -/
theorem C2_beacon_slices_amended :
    ∀ (data bindkey : List Nat) (mac : Option (List Nat)) (c : CipherCall),
      decrypt_mibeacon_step data bindkey mac = some (DecryptStep.cipher c) →
      c.ciphertext = (data.drop (if (leBytes (data.take 2)).testBit 4 then 11 else 5)).take
          (data.length - 7 - (if (leBytes (data.take 2)).testBit 4 then 11 else 5))
      ∧ c.tag = data.drop (data.length - 4)
      ∧ c.nonce.length = 12
      ∧ (c.nonce.drop 6).take 3 = (data.drop 2).take 3
      ∧ c.nonce.drop 9 = (data.drop (data.length - 7)).take 3 := by
  intro data bindkey mac c h
  simp only [decrypt_mibeacon_step] at h
  by_cases h11 : data.length < 11
  · rw [if_pos h11] at h
    exact Option.noConfusion h
  rw [if_neg h11] at h
  by_cases henc : (leBytes (data.take 2)).testBit 3 = true
  swap
  · rw [if_pos henc] at h
    rw [Option.some.injEq] at h
    exact DecryptStep.noConfusion h
  rw [if_neg (not_not_intro henc)] at h
  by_cases hmac4 : (leBytes (data.take 2)).testBit 4 = true
  · simp only [hmac4, if_true] at h
    by_cases h19 : data.length < 11 + 8
    · rw [if_pos h19] at h
      exact Option.noConfusion h
    rw [if_neg h19] at h
    split at h
    · exact Option.noConfusion h
    · simp only [Option.some.injEq, DecryptStep.cipher.injEq] at h
      subst h
      have hml : (data.drop (data.length - 4)).length = 4 := by
        rw [List.length_drop]
        omega
      obtain ⟨hc1, hc2⟩ := ctAndTag_split bindkey
        (((data.drop 5).take 6).reverse ++ (data.drop 2).take 3 ++
          (data.drop (data.length - 7)).take 3) [0x11]
        ((data.drop 11).take (data.length - 7 - 11))
        (data.drop (data.length - 4)) hml
      have h6 : (((data.drop 5).take 6).reverse : List Nat).length = 6 := by
        rw [List.length_reverse, List.length_take, List.length_drop]
        omega
      have h3a : (((data.drop 2).take 3 : List Nat)).length = 3 := by
        rw [List.length_take, List.length_drop]
        omega
      have h3b : (((data.drop (data.length - 7)).take 3 : List Nat)).length = 3 := by
        rw [List.length_take, List.length_drop]
        omega
      rw [if_pos hmac4]
      refine ⟨hc1, hc2, ?_, ?_, ?_⟩
      · show (((data.drop 5).take 6).reverse ++ (data.drop 2).take 3 ++
            (data.drop (data.length - 7)).take 3).length = 12
        rw [List.length_append, List.length_append, h6, h3a, h3b]
      · show ((((data.drop 5).take 6).reverse ++ (data.drop 2).take 3 ++
            (data.drop (data.length - 7)).take 3).drop 6).take 3 = (data.drop 2).take 3
        rw [List.append_assoc, List.drop_left' h6, List.take_left' h3a]
      · show (((data.drop 5).take 6).reverse ++ (data.drop 2).take 3 ++
            (data.drop (data.length - 7)).take 3).drop 9
            = (data.drop (data.length - 7)).take 3
        rw [List.drop_left' (by rw [List.length_append, h6, h3a])]
  · simp only [hmac4, if_false, Bool.false_eq_true] at h
    cases mac with
    | none => exact Option.noConfusion h
    | some m =>
      dsimp only at h
      by_cases hme : m.isEmpty = true
      · rw [if_pos hme] at h
        exact Option.noConfusion h
      rw [if_neg hme] at h
      dsimp only at h
      by_cases h13 : data.length < 5 + 8
      · rw [if_pos h13] at h
        exact Option.noConfusion h
      rw [if_neg h13] at h
      split at h
      · exact Option.noConfusion h
      · rename_i hn12
        simp only [Option.some.injEq, DecryptStep.cipher.injEq] at h
        subst h
        have hml : (data.drop (data.length - 4)).length = 4 := by
          rw [List.length_drop]
          omega
        obtain ⟨hc1, hc2⟩ := ctAndTag_split bindkey
          (m.reverse ++ (data.drop 2).take 3 ++ (data.drop (data.length - 7)).take 3)
          [0x11] ((data.drop 5).take (data.length - 7 - 5))
          (data.drop (data.length - 4)) hml
        have hn12' : (m.reverse ++ (data.drop 2).take 3 ++
            (data.drop (data.length - 7)).take 3).length = 12 := not_ne_iff.mp hn12
        have h3a : (((data.drop 2).take 3 : List Nat)).length = 3 := by
          rw [List.length_take, List.length_drop]
          omega
        have h3b : (((data.drop (data.length - 7)).take 3 : List Nat)).length = 3 := by
          rw [List.length_take, List.length_drop]
          omega
        have h6 : (m.reverse : List Nat).length = 6 := by
          rw [List.length_append, List.length_append, h3a, h3b] at hn12'
          omega
        rw [if_neg (by simp [hmac4])]
        refine ⟨hc1, hc2, ?_, ?_, ?_⟩
        · exact hn12'
        · show ((m.reverse ++ (data.drop 2).take 3 ++
              (data.drop (data.length - 7)).take 3).drop 6).take 3 = (data.drop 2).take 3
          rw [List.append_assoc, List.drop_left' h6, List.take_left' h3a]
        · show (m.reverse ++ (data.drop 2).take 3 ++
              (data.drop (data.length - 7)).take 3).drop 9
              = (data.drop (data.length - 7)).take 3
          rw [List.drop_left' (by rw [List.length_append, h6, h3a])]

/-- Closed witness for the amended C2 at the concrete frame `c2frame`. -/
theorem C2_beacon_slices_amended_witness :
    decrypt_mibeacon_step c2frame (List.replicate 16 0) none
        = some (DecryptStep.cipher
            ⟨List.replicate 16 0,
             [15, 14, 13, 12, 11, 10, 1, 2, 3, 0xB1, 0xB2, 0xB3],
             [0xAA, 0xC1, 0xC2, 0xC3, 0xC4], [0x11]⟩)
    ∧ ((⟨List.replicate 16 0,
          [15, 14, 13, 12, 11, 10, 1, 2, 3, 0xB1, 0xB2, 0xB3],
          [0xAA, 0xC1, 0xC2, 0xC3, 0xC4], [0x11]⟩ : CipherCall).ciphertext
          = (c2frame.drop (if (leBytes (c2frame.take 2)).testBit 4 then 11 else 5)).take
              (c2frame.length - 7 - (if (leBytes (c2frame.take 2)).testBit 4 then 11 else 5))
        ∧ (⟨List.replicate 16 0,
            [15, 14, 13, 12, 11, 10, 1, 2, 3, 0xB1, 0xB2, 0xB3],
            [0xAA, 0xC1, 0xC2, 0xC3, 0xC4], [0x11]⟩ : CipherCall).tag
          = c2frame.drop (c2frame.length - 4)
        ∧ (⟨List.replicate 16 0,
            [15, 14, 13, 12, 11, 10, 1, 2, 3, 0xB1, 0xB2, 0xB3],
            [0xAA, 0xC1, 0xC2, 0xC3, 0xC4], [0x11]⟩ : CipherCall).nonce.length = 12
        ∧ ((⟨List.replicate 16 0,
            [15, 14, 13, 12, 11, 10, 1, 2, 3, 0xB1, 0xB2, 0xB3],
            [0xAA, 0xC1, 0xC2, 0xC3, 0xC4], [0x11]⟩ : CipherCall).nonce.drop 6).take 3
          = (c2frame.drop 2).take 3
        ∧ (⟨List.replicate 16 0,
            [15, 14, 13, 12, 11, 10, 1, 2, 3, 0xB1, 0xB2, 0xB3],
            [0xAA, 0xC1, 0xC2, 0xC3, 0xC4], [0x11]⟩ : CipherCall).nonce.drop 9
          = (c2frame.drop (c2frame.length - 7)).take 3) :=
  ⟨by decide,
   C2_beacon_slices_amended c2frame (List.replicate 16 0) none
     ⟨List.replicate 16 0,
      [15, 14, 13, 12, 11, 10, 1, 2, 3, 0xB1, 0xB2, 0xB3],
      [0xAA, 0xC1, 0xC2, 0xC3, 0xC4], [0x11]⟩ (by decide)⟩

/-- Concrete 13-byte encrypted MiBeacon frame without embedded address:
frame control 0x0008 (encrypted, no address), product id + counter 1 2 3,
a 1-byte encrypted payload 0xAA, trailing counter segment 0xB1 0xB2 0xB3,
and 4-byte tag 0xC1..0xC4. -/
def c7frame : List Nat :=
  [0x08, 0x00, 1, 2, 3, 0xAA, 0xB1, 0xB2, 0xB3, 0xC1, 0xC2, 0xC3, 0xC4]

/-- C7 counterexample: `c7frame` is an encrypted frame of 13 < 19 bytes on
which the decryptor does not fail but reaches the AES-CCM invocation
(a device address was supplied by the caller), refuting the claim that
every frame shorter than 19 bytes fails with Truncated before any
decryption is attempted. -/
theorem C7_truncated_counterexample :
    c7frame.length < 19
    ∧ (leBytes (c7frame.take 2)).testBit 3 = true
    ∧ stepCipherArgs
        (decrypt_mibeacon_step c7frame (List.replicate 16 0)
          (some [9, 8, 7, 6, 5, 4])) ≠ none := by decide

/-- C7 amended: an encrypted frame fails (with no decryption attempted)
whenever it is shorter than payloadStart + 8 bytes: shorter than 19 bytes
when the device address is embedded in the frame, shorter than 13 bytes
when it is not. -/
theorem C7_truncated_amended :
    ∀ (data bindkey : List Nat) (mac : Option (List Nat)),
      (leBytes (data.take 2)).testBit 3 = true →
      (((leBytes (data.take 2)).testBit 4 = true → data.length < 19 →
          decrypt_mibeacon_step data bindkey mac = none)
        ∧ ((leBytes (data.take 2)).testBit 4 = false → data.length < 13 →
          decrypt_mibeacon_step data bindkey mac = none)) := by
  intro data bindkey mac henc
  simp only [decrypt_mibeacon_step]
  constructor
  · intro hmac4 hlen
    by_cases h11 : data.length < 11
    · rw [if_pos h11]
    rw [if_neg h11, if_neg (not_not_intro henc)]
    simp only [hmac4, if_true]
    rw [if_pos (by omega)]
  · intro hmac4 hlen
    by_cases h11 : data.length < 11
    · rw [if_pos h11]
    rw [if_neg h11, if_neg (not_not_intro henc)]
    simp only [hmac4, if_false, Bool.false_eq_true]
    cases mac with
    | none => rfl
    | some m =>
      dsimp only
      by_cases hme : m.isEmpty = true
      · rw [if_pos hme]
      · rw [if_neg hme]
        dsimp only
        rw [if_pos (by omega)]

/-- Closed witness for the amended C7: a 14-byte encrypted frame with
embedded address and a 12-byte encrypted frame without embedded address
both fail before any decryption. -/
theorem C7_truncated_amended_witness :
    ((leBytes (([0x18, 0, 1, 2, 3, 10, 11, 12, 13, 14, 15, 16, 17, 18] : List Nat).take 2)).testBit 3 = true
      ∧ (leBytes (([0x18, 0, 1, 2, 3, 10, 11, 12, 13, 14, 15, 16, 17, 18] : List Nat).take 2)).testBit 4 = true
      ∧ ([0x18, 0, 1, 2, 3, 10, 11, 12, 13, 14, 15, 16, 17, 18] : List Nat).length < 19
      ∧ decrypt_mibeacon_step [0x18, 0, 1, 2, 3, 10, 11, 12, 13, 14, 15, 16, 17, 18]
          (List.replicate 16 0) none = none)
    ∧ ((leBytes (([0x08, 0, 1, 2, 3, 10, 11, 12, 13, 14, 15, 16] : List Nat).take 2)).testBit 3 = true
      ∧ (leBytes (([0x08, 0, 1, 2, 3, 10, 11, 12, 13, 14, 15, 16] : List Nat).take 2)).testBit 4 = false
      ∧ ([0x08, 0, 1, 2, 3, 10, 11, 12, 13, 14, 15, 16] : List Nat).length < 13
      ∧ decrypt_mibeacon_step [0x08, 0, 1, 2, 3, 10, 11, 12, 13, 14, 15, 16]
          (List.replicate 16 0) (some [9, 8, 7, 6, 5, 4]) = none) :=
  ⟨⟨by decide, by decide, by decide,
    (C7_truncated_amended [0x18, 0, 1, 2, 3, 10, 11, 12, 13, 14, 15, 16, 17, 18]
      (List.replicate 16 0) none (by decide)).1 (by decide) (by decide)⟩,
   ⟨by decide, by decide, by decide,
    (C7_truncated_amended [0x08, 0, 1, 2, 3, 10, 11, 12, 13, 14, 15, 16]
      (List.replicate 16 0) (some [9, 8, 7, 6, 5, 4]) (by decide)).2 (by decide) (by decide)⟩⟩

/-- C6: for every frame whose frame-control marks it encrypted, decryption
fails closed: with no key supplied, or with the address neither embedded in
the frame nor supplied by the caller, decoding returns no result — the
frame is never interpreted as plaintext — for every cipher oracle and
every prior output state. -/
theorem C6_fail_closed :
    ∀ (aes : CipherCall → Option (List Nat)) (log : List String)
      (data : List Nat) (bindkey mac : Option (List Nat)) (now : Nat),
      (leBytes (data.take 2)).testBit 3 = true →
      (bindkey = none ∨ ((leBytes (data.take 2)).testBit 4 = false ∧ mac = none)) →
      (parse_scale_service_data_logged aes log data bindkey mac now).2 = none
      ∧ parse_scale_service_data aes data bindkey mac now = none := by
  intro aes log data bindkey mac now henc hcase
  have main : ∀ lg : List String,
      (parse_scale_service_data_logged aes lg data bindkey mac now).2 = none := by
    intro lg
    simp only [parse_scale_service_data_logged]
    by_cases h5 : data.length < 5
    · rw [if_pos h5]
    rw [if_neg h5, if_pos henc]
    rcases hcase with hb | ⟨hm4, hmn⟩
    · subst hb
      rfl
    · cases bindkey with
      | none => rfl
      | some k =>
        dsimp only
        by_cases hk : k.isEmpty = true
        · simp only [hk, Bool.not_true, Bool.false_eq_true, if_false]
        · have hkb : (!k.isEmpty) = true := by simp [hk]
          rw [if_pos hkb]
          have hstep : decrypt_mibeacon_step data k mac = none := by
            subst hmn
            simp only [decrypt_mibeacon_step]
            by_cases h11 : data.length < 11
            · rw [if_pos h11]
            rw [if_neg h11, if_neg (not_not_intro henc)]
            simp only [hm4, Bool.false_eq_true, if_false]
          simp only [Option.getD_some, decrypt_mibeacon_logged, hstep]
  exact ⟨main log, main []⟩

/-- Closed witness for C6: a 5-byte encrypted frame with no bindkey
supplied decodes to nothing, under the always-failing cipher oracle. -/
theorem C6_fail_closed_witness :
    (leBytes (([0x08, 0, 0, 0, 0] : List Nat).take 2)).testBit 3 = true
    ∧ ((parse_scale_service_data_logged (fun _ => none) []
          [0x08, 0, 0, 0, 0] none none 0).2 = none
      ∧ parse_scale_service_data (fun _ => none)
          [0x08, 0, 0, 0, 0] none none 0 = none) :=
  ⟨by decide,
   C6_fail_closed (fun _ => none) [] [0x08, 0, 0, 0, 0] none none 0
     (by decide) (Or.inl rfl)⟩

/-- The decode result of `decrypt_mibeacon` does not depend on the prior
output state. -/
theorem decrypt_logged_result_state_free (aes : CipherCall → Option (List Nat))
    (log log' : List String) (data k : List Nat) (mac : Option (List Nat)) :
    (decrypt_mibeacon_logged aes log data k mac).2
      = (decrypt_mibeacon_logged aes log' data k mac).2 := by
  simp only [decrypt_mibeacon_logged]
  cases decrypt_mibeacon_step data k mac with
  | none => rfl
  | some s =>
    cases s with
    | plain p => rfl
    | cipher c =>
      dsimp only
      cases aes c with
      | none => rfl
      | some pt => rfl

/-- The decode result of the object-stream fallback branch does not depend
on the prior output state. -/
theorem fallback_result_state_free (log log' : List String) (d : List Nat)
    (now : Nat) :
    (scaleObjectsFallback log d now).2 = (scaleObjectsFallback log' d now).2 := by
  simp only [scaleObjectsFallback]
  cases (parse_mibeacon_objects d).weightKg with
  | none => rfl
  | some w => rfl

/-- The decode result of `parse_scale_service_data` does not depend on the
prior output state. -/
theorem parse_logged_result_state_free (aes : CipherCall → Option (List Nat))
    (log log' : List String) (data : List Nat) (bindkey mac : Option (List Nat))
    (now : Nat) :
    (parse_scale_service_data_logged aes log data bindkey mac now).2
      = (parse_scale_service_data_logged aes log' data bindkey mac now).2 := by
  simp only [parse_scale_service_data_logged]
  by_cases h5 : data.length < 5
  · simp only [if_pos h5]
  simp only [if_neg h5]
  by_cases henc : (leBytes (data.take 2)).testBit 3 = true
  case neg =>
    simp only [if_neg henc]
    by_cases hoff : (if (leBytes (data.take 2)).testBit 4 = true then 11 else 5) + 3
        ≤ data.length
    · simp only [if_pos hoff]
      cases (parse_mibeacon_objects
          (data.drop (if (leBytes (data.take 2)).testBit 4 = true then 11 else 5))).weightKg with
      | none => rfl
      | some w => rfl
    · simp only [if_neg hoff]
  case pos =>
    simp only [if_pos henc]
    cases bindkey with
    | none => rfl
    | some k =>
      dsimp only
      by_cases hk : k.isEmpty = true
      · simp only [hk, Bool.not_true, Bool.false_eq_true, if_false]
      · have hkb : (!k.isEmpty) = true := by simp [hk]
        simp only [if_pos hkb]
        have hd := decrypt_logged_result_state_free aes log log' data
          ((some k).getD []) mac
        rw [hd]
        cases hD : (decrypt_mibeacon_logged aes log' data ((some k).getD []) mac).2 with
        | none => rfl
        | some decrypted =>
          by_cases hde : decrypted.isEmpty = true
          · simp only [if_pos hde]
          · simp only [if_neg hde]
            cases hS : parse_s400_measurement decrypted with
            | none => exact fallback_result_state_free _ _ decrypted now
            | some s =>
              by_cases hwi : (s.isWeightMeasurement || s.isImpedanceMeasurement) = true
              · simp only [if_pos hwi]
              · simp only [if_neg hwi]
                exact fallback_result_state_free _ _ decrypted now

/-- C8: decoding the same frame bytes twice — with the same key, address,
cipher and capture time, the only inputs the code consumes — produces
identical results; the result does not depend on previously emitted
output, the only mutable state the decode path touches. -/
theorem C8_decode_deterministic :
    ∀ (aes : CipherCall → Option (List Nat)) (log log' : List String)
      (data : List Nat) (bindkey mac : Option (List Nat)) (now : Nat),
      (parse_scale_service_data_logged aes log data bindkey mac now).2
        = (parse_scale_service_data_logged aes log' data bindkey mac now).2
      ∧ (parse_scale_service_data_logged aes
          (parse_scale_service_data_logged aes log data bindkey mac now).1
          data bindkey mac now).2
        = (parse_scale_service_data_logged aes log data bindkey mac now).2
      ∧ parse_scale_service_data aes data bindkey mac now
        = (parse_scale_service_data_logged aes log data bindkey mac now).2 :=
  fun aes log log' data bindkey mac now =>
    ⟨parse_logged_result_state_free aes log log' data bindkey mac now,
     parse_logged_result_state_free aes _ log data bindkey mac now,
     parse_logged_result_state_free aes [] log data bindkey mac now⟩

/-- The bounds-checking object-stream parser never fails and agrees with
the total parser, on buffers of bounded length (induction scaffold). -/
theorem parse_objects_agree :
    ∀ (n : Nat) (data : List Nat) (acc : MiObjects), data.length ≤ n →
      parse_mibeacon_objects_checked data acc
        = some (parse_mibeacon_objects_impl data acc) := by
  intro n
  induction n with
  | zero =>
    intro data acc hlen
    have hnil : data = [] := List.eq_nil_of_length_eq_zero (by omega)
    subst hnil
    simp [parse_mibeacon_objects_checked, parse_mibeacon_objects_impl]
  | succ n ih =>
    intro data acc hlen
    rcases data with _ | ⟨b0, _ | ⟨b1, _ | ⟨b2, rest⟩⟩⟩
    · simp [parse_mibeacon_objects_checked, parse_mibeacon_objects_impl]
    · simp [parse_mibeacon_objects_checked, parse_mibeacon_objects_impl]
    · simp [parse_mibeacon_objects_checked, parse_mibeacon_objects_impl]
    · rw [parse_mibeacon_objects_checked, parse_mibeacon_objects_impl]
      have h3 : 3 ≤ (b0 :: b1 :: b2 :: rest).length := by
        simp
      rw [if_pos h3]
      simp only [List.getElem?_cons_zero, List.getElem?_cons_succ]
      have hdrop3 : (b0 :: b1 :: b2 :: rest).drop 3 = rest := rfl
      have hdrop : (b0 :: b1 :: b2 :: rest).drop (3 + b2) = rest.drop b2 := by
        rw [Nat.add_comm]
        rfl
      by_cases hc : rest.length < b2
      · rw [if_pos (by simp; omega), if_pos hc]
      · rw [if_neg (by simp; omega), if_neg hc, hdrop, hdrop3]
        exact ih (rest.drop b2) _ (by simp only [List.length_drop]; simp at hlen; omega)

/-- C9: the self-describing object-stream parser terminates on every input
(it is a total function), never reads out of bounds (the bounds-checking
model agrees with it and never fails), stops when fewer than 3 bytes
remain, and stops at an object whose declared length extends past the end
of the buffer, returning the fields recognized so far. -/
theorem C9_object_stream_safety :
    ∀ (data : List Nat) (acc : MiObjects),
      parse_mibeacon_objects_checked data acc
          = some (parse_mibeacon_objects_impl data acc)
      ∧ (data.length < 3 → parse_mibeacon_objects_impl data acc = acc)
      ∧ (∀ b0 b1 b2 rest, data = b0 :: b1 :: b2 :: rest → rest.length < b2 →
          parse_mibeacon_objects_impl data acc = acc)
      ∧ parse_mibeacon_objects data = parse_mibeacon_objects_impl data MiObjects.empty := by
  intro data acc
  refine ⟨parse_objects_agree data.length data acc le_rfl, ?_, ?_, rfl⟩
  · intro hlen
    rcases data with _ | ⟨b0, _ | ⟨b1, _ | ⟨b2, rest⟩⟩⟩
    · simp [parse_mibeacon_objects_impl]
    · simp [parse_mibeacon_objects_impl]
    · simp [parse_mibeacon_objects_impl]
    · simp only [List.length_cons] at hlen
      omega
  · intro b0 b1 b2 rest hdata hrest
    subst hdata
    rw [parse_mibeacon_objects_impl, if_pos hrest]

/-- Closed witness for C9: the checked parser succeeds and agrees on a
buffer whose single object declares a length overrunning the buffer, the
parser stops on a 1-byte buffer, and stops at the overlong object. -/
theorem C9_object_stream_safety_witness :
    (parse_mibeacon_objects_checked [0x06, 0x10, 5] MiObjects.empty
        = some (parse_mibeacon_objects_impl [0x06, 0x10, 5] MiObjects.empty))
    ∧ (([1] : List Nat).length < 3
      ∧ parse_mibeacon_objects_impl [1] MiObjects.empty = MiObjects.empty)
    ∧ (([] : List Nat).length < 5
      ∧ parse_mibeacon_objects_impl [0x06, 0x10, 5] MiObjects.empty = MiObjects.empty) :=
  ⟨(C9_object_stream_safety [0x06, 0x10, 5] MiObjects.empty).1,
   ⟨by decide, (C9_object_stream_safety [1] MiObjects.empty).2.1 (by decide)⟩,
   ⟨by decide, (C9_object_stream_safety [0x06, 0x10, 5] MiObjects.empty).2.2.1
      0x06 0x10 5 [] rfl (by decide)⟩⟩

end ScaleApp
